import Mathlib

/-!
Verification development for the goodreads_stats enrichment pipeline.

Strings from the Python source are modelled as lists of characters
(`Str := List Char`); `toStr` converts a Lean string literal.  Python string
operations (`strip`, `lstrip`, `lower`, `istitle`, `isdigit`, slicing) are
modelled character by character, restricted to the ASCII inputs the pipeline
handles.
-/

namespace GoodreadsStats

/-- Strings are modelled as lists of characters. -/
abbrev Str := List Char

/-- Convert a Lean string literal to the character-list model. -/
def toStr (s : String) : Str := s.data

/-- Python whitespace characters stripped by `str.strip()` (ASCII fragment). -/
def pyIsSpace (c : Char) : Bool :=
  c == ' ' || c == '\t' || c == '\n' || c == '\r' || c == '\u000B' || c == '\u000C'

/-- Model of Python `str.strip()`: drop whitespace from both ends. -/
def pyStrip (s : Str) : Str :=
  ((s.dropWhile pyIsSpace).reverse.dropWhile pyIsSpace).reverse

/-- Model of Python `str.lstrip("=:- ")` used in `genre_merger.py` line 46. -/
def pyLStripPunct (s : Str) : Str :=
  s.dropWhile (fun c => c == '=' || c == ':' || c == '-' || c == ' ')

/-- Model of Python `str.lower()` (ASCII fragment). -/
def pyLower (s : Str) : Str := s.map Char.toLower

/-- Model of Python `str.isdigit()` (ASCII fragment): non-empty and all digits. -/
def pyIsDigitStr (s : Str) : Bool := !s.isEmpty && s.all Char.isDigit

/-- Helper for `pyIsTitle`: walks the string tracking whether the previous
character was cased and whether any cased character was seen, exactly as
CPython's `str.istitle` does (ASCII fragment). -/
def pyIsTitleAux : Str → Bool → Bool → Bool
  | [], _, cased => cased
  | c :: rest, prevCased, cased =>
    if c.isUpper then
      if prevCased then false else pyIsTitleAux rest true true
    else if c.isLower then
      if prevCased then pyIsTitleAux rest true true else false
    else pyIsTitleAux rest false cased

/-- Model of Python `str.istitle()` (ASCII fragment). -/
def pyIsTitle (s : Str) : Bool := pyIsTitleAux s false false

/-- One pass of the noise-prefix removal loop in `merge_and_normalize`
(genre_merger.py lines 43-46): when the label starts with the prefix,
drop it, strip whitespace and then left-strip the characters `=:- `. -/
def stripOnePrefix (p : Str) (s : Str) : Str :=
  if p.isPrefixOf s then pyLStripPunct (pyStrip (s.drop p.length)) else s

/-- The fixed noise prefixes of `merge_and_normalize` (genre_merger.py lines 38-41). -/
def prefixesToRemove : List Str := [toStr "nyt:", toStr "New York Times"]

/-- The prefix-removal loop of `merge_and_normalize` (genre_merger.py lines 43-46),
applied for each prefix in order. -/
def stripNoisePrefixes (s : Str) : Str :=
  prefixesToRemove.foldl (fun acc p => stripOnePrefix p acc) s

/-- Per-label cleaning and filtering of `merge_and_normalize`
(genre_merger.py lines 33-57): trims, strips noise prefixes, and discards
labels that are too short, purely numeric, or end in " century".
Returns `none` exactly when the loop body skips the label. -/
def cleanGenre (genre : Str) : Option Str :=
  if genre.isEmpty || (pyStrip genre).isEmpty then none
  else
    let c := stripNoisePrefixes (pyStrip genre)
    if c.length < 2 then none
    else if pyIsDigitStr c then none
    else if (toStr " century").isSuffixOf c then none
    else if c.isEmpty then none
    else some c

/-- First element of the accumulated set whose lowercase form matches the
new label's, mirroring the linear scan in genre_merger.py lines 59-63.
(The accumulated set holds at most one element per lowercase class, so
which match is found does not depend on iteration order.) -/
def findCaseMatch (g : Str) : List Str → Option Str
  | [] => none
  | e :: rest => if pyLower e = pyLower g then some e else findCaseMatch g rest

/-- Removal of an element from the accumulated set, modelling
`normalized_genres.remove(existing)` (genre_merger.py line 69). -/
def removeFirst (e : Str) : List Str → List Str
  | [] => []
  | a :: rest => if a = e then rest else a :: removeFirst e rest

/-- Case-insensitive insertion into the accumulated genre set
(genre_merger.py lines 56-72): on a case-insensitive match, the new label
replaces the kept one only when the new label is title case and the kept
one is not; otherwise the first-seen rendering stays. -/
def dedupInsert (acc : List Str) (g : Str) : List Str :=
  match findCaseMatch g acc with
  | some e => if pyIsTitle g && !pyIsTitle e then removeFirst e acc ++ [g] else acc
  | none => acc ++ [g]

/-- The full deduplication loop over the cleaned labels. -/
def dedupGenres (l : List Str) : List Str := l.foldl dedupInsert []

/-- Lexicographic code-point comparison on character lists, modelling the
default Python string ordering used by `sorted` (genre_merger.py line 75). -/
def strLe : Str → Str → Bool
  | [], _ => true
  | _ :: _, [] => false
  | a :: as, b :: bs =>
    if a.toNat < b.toNat then true
    else if b.toNat < a.toNat then false
    else strLe as bs

/-- The code-point ordering as a decidable relation. -/
def strLeRel (a b : Str) : Prop := strLe a b = true

instance : DecidableRel strLeRel := fun a b =>
  inferInstanceAs (Decidable (strLe a b = true))

/-- Model of `merge_and_normalize` (genre_merger.py lines 9-75): concatenate
the two source lists, clean and filter each label, deduplicate
case-insensitively, and return the survivors sorted by code point. -/
def merge_and_normalize (google_genres openlib_genres : List Str) : List Str :=
  List.insertionSort strLeRel
    (dedupGenres ((google_genres ++ openlib_genres).filterMap cleanGenre))

/-- The discard condition exactly as the specification words it (amended:
the suffix is " century" with its leading space, as in the source): after
trimming and noise-prefix stripping, the label is discarded when the result
is empty, shorter than 2 characters, purely numeric, or ends in " century". -/
def specDiscardCond (genre : Str) : Bool :=
  let c := stripNoisePrefixes (pyStrip genre)
  c.isEmpty || decide (c.length < 2) || pyIsDigitStr c || (toStr " century").isSuffixOf c

/-- Lowercase image of a list of labels, as a finite set. -/
def lowerFinset (l : List Str) : Finset Str := (l.map pyLower).toFinset

/-! Book identifiers and correlation keys. -/

/-- Model of the `BookInfo` dataclass (genres/models/book.py lines 10-17). -/
structure BookInfo where
  title : Str
  author : Str
  isbn13 : Option Str
  isbn : Option Str
  goodreads_id : Option Str
deriving DecidableEq

instance : Inhabited BookInfo := ⟨⟨[], [], none, none, none⟩⟩

/-- The correlation key: the external id when present and non-empty (Python's
`or` treats the empty string as falsy), otherwise the `f"{title}-{author}"`
composite.  Shared by the orchestrator (orchestrator/lambda_function.py
lines 314, 388, 394) and the aggregator (aggregator/lambda_function.py
lines 37-39, 317-320). -/
def bookKey (goodreads_id : Option Str) (title author : Str) : Str :=
  match goodreads_id with
  | some g => if g.isEmpty then title ++ toStr "-" ++ author else g
  | none => title ++ toStr "-" ++ author

/-- The orchestrator's `book_id` for a `BookInfo`
(orchestrator/lambda_function.py line 314). -/
def orchestratorBookId (b : BookInfo) : Str := bookKey b.goodreads_id b.title b.author

/-- Model of the `EnrichedBook` dataclass (genres/models/book.py lines 20-42),
with the raw response payloads carried opaquely as their presence flags. -/
structure EnrichedBook where
  input_info : BookInfo
  google_success : Bool
  openlib_success : Bool
  processed_google_genres : List Str
  processed_openlib_genres : List Str
  final_genres : List Str
  thumbnail_url : Option Str
  small_thumbnail_url : Option Str
  processing_log : List Str
deriving DecidableEq

/-- Model of an original book record as the aggregator reads it from
`original_books.json`: the fields that participate in correlation, carrying
the rest of the CSV row opaquely is unnecessary for the claims. -/
structure OrigBook where
  title : Str
  author : Str
  goodreads_id : Option Str
deriving DecidableEq

/-- The aggregator's `book_key` for an original book
(aggregator/lambda_function.py lines 37-39). -/
def origBookKey (b : OrigBook) : Str := bookKey b.goodreads_id b.title b.author

/-! The orchestrator's distributed chunk dispatcher. -/

/-- Model of one per-book result dictionary produced by the book-processor
invocation path (orchestrator/lambda_function.py lines 295-305 and 366-376).
`book_id` is optional because `create_final_dashboard_json` reads it with
`result.get('book_id', ...)`. -/
structure EnrichedResult where
  book_id : Option Str
  title : Str
  author : Str
  success : Bool
  final_genres : List Str
  thumbnail_url : Option Str
  genre_enrichment_success : Bool
  error_message : Option Str
  processing_logs : List Str
deriving DecidableEq

/-- Model of the decoded payload of a book-processor Lambda response:
either an `errorMessage` field is present or the per-book result is. -/
structure LambdaResp where
  errorMessage : Option Str
  result : EnrichedResult
deriving DecidableEq

/-- Outcome of one Lambda invocation as seen by the dispatcher: the call
either returns a decoded response or raises (timeout, transport error). -/
inductive InvocationOutcome where
  | exn (e : Str)
  | ok (resp : LambdaResp)
deriving DecidableEq

/-- The structured failure record built in the `except` branch of
`invoke_book_processor_with_fallback` (orchestrator/lambda_function.py
lines 366-376). -/
def invocationFailedResult (book : BookInfo) (e : Str) : EnrichedResult :=
  { book_id := some (orchestratorBookId book)
    title := book.title
    author := book.author
    success := false
    final_genres := []
    thumbnail_url := none
    genre_enrichment_success := false
    error_message := some (toStr "Invocation failed: " ++ e)
    processing_logs := [toStr "Lambda invocation error: " ++ e] }

/-- Model of `invoke_book_processor_with_fallback` (orchestrator/
lambda_function.py lines 312-376), parametrised by an oracle giving each
book's invocation outcome.  A raised exception, or a Lambda-level
`errorMessage` in the response (re-raised on line 349 and caught on line
360), becomes a structured failure record; otherwise the decoded result is
returned unchanged. -/
def invoke_book_processor_with_fallback (invokeRes : BookInfo → InvocationOutcome)
    (book : BookInfo) : EnrichedResult :=
  match invokeRes book with
  | .exn e => invocationFailedResult book e
  | .ok resp =>
    match resp.errorMessage with
    | some m => invocationFailedResult book (toStr "Lambda error: " ++ m)
    | none => resp.result

/-- Outcome of one gathered task in `asyncio.gather(..., return_exceptions=True)`:
either a value or an exception object. -/
inductive TaskOutcome where
  | exn (e : Str)
  | val (r : EnrichedResult)
deriving DecidableEq

/-- The structured failure record built by the conversion loop of
`process_chunk_simultaneously` for a task that completed with an exception
(orchestrator/lambda_function.py lines 292-305). -/
def lambdaFailedResult (book : BookInfo) (e : Str) : EnrichedResult :=
  { book_id := some (orchestratorBookId book)
    title := book.title
    author := book.author
    success := false
    final_genres := []
    thumbnail_url := none
    genre_enrichment_success := false
    error_message := some (toStr "Lambda invocation failed: " ++ e)
    processing_logs := [toStr "Lambda failed: " ++ e] }

/-- Conversion of one gathered outcome at index `i` of the chunk
(orchestrator/lambda_function.py lines 290-307). -/
def convertTaskOutcome (book : BookInfo) : TaskOutcome → EnrichedResult
  | .exn e => lambdaFailedResult book e
  | .val r => r

/-- Event-loop model of `asyncio.gather`: tasks complete in an arbitrary
order and each completion writes its result into the slot of the task's
index; `none` marks a slot whose task has not completed. -/
def fillSlots (taskResult : Nat → α) : List Nat → (Nat → Option α) → (Nat → Option α)
  | [], slots => slots
  | i :: rest, slots =>
    fillSlots taskResult rest (fun j => if j = i then some (taskResult i) else slots j)

/-- Gathered results of `n` tasks after the completions in `completionOrder`
have run, read back in task order — the list `asyncio.gather` returns. -/
def gatherResults (n : Nat) (taskResult : Nat → α) (completionOrder : List Nat) :
    List (Option α) :=
  (List.range n).map (fillSlots taskResult completionOrder (fun _ => none))

/-- Model of `AsyncGenreEnricher.enrich_books_batch` (genres/pipeline/
enricher.py lines 60-86): one enrichment task per book, gathered in task
order.  The per-book pipeline `enrich_book_async` is the parameter
`enrichOne`; a slot is `none` only if that book's task never completed. -/
def enrich_books_batch (enrichOne : BookInfo → α) (books : List BookInfo)
    (completionOrder : List Nat) : List (Option α) :=
  gatherResults books.length (fun i => enrichOne (books.getD i default)) completionOrder

/-- Model of `process_chunk_simultaneously` (orchestrator/lambda_function.py
lines 266-309): gather one invocation task per chunk member, then convert
exception outcomes to structured failure records, preserving task order. -/
def process_chunk_simultaneously (chunk : List BookInfo) (outcome : Nat → TaskOutcome)
    (completionOrder : List Nat) : List (Option EnrichedResult) :=
  (List.range chunk.length).map (fun i =>
    (fillSlots outcome completionOrder (fun _ => none) i).map
      (convertTaskOutcome (chunk.getD i default)))

/-! The orchestrator's final dashboard assembly. -/

/-- The key under which a per-book result is stored in the dashboard map
(orchestrator/lambda_function.py line 388): `result.get('book_id', ...)`
falls back to the title-author composite only when the key is absent. -/
def resultKey (r : EnrichedResult) : Str :=
  r.book_id.getD (r.title ++ toStr "-" ++ r.author)

/-- One Python dict assignment `d[key x] = x`: later writes shadow earlier
ones under the same key. -/
def dictInsert (key : α → Str) (m : Str → Option α) (x : α) : Str → Option α :=
  fun k => if k = key x then some x else m k

/-- A Python dict built by assigning each list element under its key, in
list order. -/
def dictOfList (key : α → Str) (l : List α) : Str → Option α :=
  l.foldl (dictInsert key) (fun _ => none)

/-- The `enriched_map` dictionary build of `create_final_dashboard_json`
(orchestrator/lambda_function.py lines 386-389): later results overwrite
earlier ones under the same key. -/
def buildEnrichedMap (results : List EnrichedResult) : Str → Option EnrichedResult :=
  dictOfList resultKey results

/-- One combined dashboard entry (orchestrator/lambda_function.py
lines 398-408): the original CSV fields plus the enrichment fields. -/
structure CombinedBook where
  orig : OrigBook
  final_genres : List Str
  thumbnail_url : Option Str
  genre_enrichment_success : Bool
  processing_logs : List Str
  error_message : Option Str
deriving DecidableEq

/-- Combination of one original book with its looked-up enrichment
(orchestrator/lambda_function.py lines 393-410); a missing entry yields the
`.get` defaults of the empty dict. -/
def combineBook (m : Str → Option EnrichedResult) (ob : OrigBook) : CombinedBook :=
  match m (origBookKey ob) with
  | some e =>
    { orig := ob
      final_genres := e.final_genres
      thumbnail_url := e.thumbnail_url
      genre_enrichment_success := e.genre_enrichment_success
      processing_logs := e.processing_logs
      error_message := e.error_message }
  | none =>
    { orig := ob
      final_genres := []
      thumbnail_url := none
      genre_enrichment_success := false
      processing_logs := []
      error_message := none }

/-- The `books` list of `create_final_dashboard_json`
(orchestrator/lambda_function.py lines 379-424); the surrounding metadata
(counts and a wall-clock timestamp) is derived from this list. -/
def create_final_dashboard_books (enriched_results : List EnrichedResult)
    (original_books : List OrigBook) : List CombinedBook :=
  original_books.map (combineBook (buildEnrichedMap enriched_results))

/-! The aggregator Lambda. -/

/-- Body of one enriched result as the aggregator reads it
(aggregator/lambda_function.py lines 80-96). -/
structure RespBody where
  final_genres : List Str
  genre_enrichment_success : Bool
  thumbnail_url : Option Str
  small_thumbnail_url : Option Str
  genre_sources : List Str
  enrichment_logs : List Str
  error : Option Str
deriving DecidableEq

/-- One enriched result envelope: `{statusCode, body}`. -/
structure EnrichedResp where
  statusCode : Nat
  body : RespBody
deriving DecidableEq

/-- One stored enriched-result object: `{'original_book': ..., 'enriched_result': ...}`
(aggregator/lambda_function.py lines 312-322). -/
structure EnrichedFile where
  original_book : OrigBook
  enriched_result : EnrichedResp
deriving DecidableEq

/-- The `enriched_results_map` build of `process_job_aggregation`
(aggregator/lambda_function.py lines 311-322): keyed by the stored original
book's correlation key, later files overwrite earlier ones. -/
def buildAggMap (files : List EnrichedFile) : Str → Option EnrichedResp :=
  fun k => ((dictOfList (fun f => origBookKey f.original_book) files) k).map
    (fun f => f.enriched_result)

/-- One merged output record of `merge_enriched_data`: the original book's
fields plus the enrichment fields set on the `BookAnalytics` object
(aggregator/lambda_function.py lines 77-100).  The dictionary plumbing that
renames CSV fields is elided; it touches no field the claims are about. -/
structure MergedBook where
  orig : OrigBook
  final_genres : List Str
  genre_enrichment_success : Bool
  thumbnail_url : Option Str
  small_thumbnail_url : Option Str
  genre_sources : List Str
  enrichment_logs : List Str
deriving DecidableEq

/-- The sentinel result substituted for a book with no enriched entry
(aggregator/lambda_function.py line 44). -/
def missingEnrichedResult : EnrichedResp :=
  ⟨500, ⟨[], false, none, none, [], [], some (toStr "No enriched result found")⟩⟩

/-- One iteration of `merge_enriched_data` (aggregator/lambda_function.py
lines 34-100): look the book up by correlation key, substitute the 500
sentinel when missing, then either apply the enrichment (statusCode 200) or
record a failed outcome on the book built from the original data. -/
def mergeOneBook (m : Str → Option EnrichedResp) (ob : OrigBook) : MergedBook :=
  let er := (m (origBookKey ob)).getD missingEnrichedResult
  if er.statusCode = 200 then
    { orig := ob
      final_genres := er.body.final_genres
      genre_enrichment_success := er.body.genre_enrichment_success
      thumbnail_url := er.body.thumbnail_url
      small_thumbnail_url := er.body.small_thumbnail_url
      genre_sources := er.body.genre_sources
      enrichment_logs := er.body.enrichment_logs }
  else
    { orig := ob
      final_genres := []
      genre_enrichment_success := false
      thumbnail_url := none
      small_thumbnail_url := none
      genre_sources := []
      enrichment_logs :=
        [toStr "Enrichment failed: " ++ (er.body.error.getD (toStr "Unknown error"))] }

/-- Model of `merge_enriched_data` (aggregator/lambda_function.py
lines 21-115): one merged record per original book, in input order.  The
`except` fallbacks for malformed rows are unreachable in this typed model. -/
def merge_enriched_data (original_books : List OrigBook)
    (m : Str → Option EnrichedResp) : List MergedBook :=
  original_books.map (mergeOneBook m)

/-- Model of the aggregation core of `process_job_aggregation`
(aggregator/lambda_function.py lines 294-402): build the lookup map, merge,
and raise (`error` status) exactly when zero enhanced records were built. -/
def process_job_aggregation (original_books : List OrigBook)
    (files : List EnrichedFile) : Except Str (List MergedBook) :=
  let enhanced := merge_enriched_data original_books (buildAggMap files)
  if enhanced.isEmpty then Except.error (toStr "No enhanced books created")
  else Except.ok enhanced

/-! Status snapshots and the aggregator's writes. -/

/-- A persisted status snapshot, restricted to the keys
`update_processing_status` writes (aggregator/lambda_function.py
lines 140-146). -/
structure ProcessingStatus where
  status : Str
  message : Str
  last_updated : Nat
  progress_percent : Nat
deriving DecidableEq

/-- Model of `update_processing_status` (aggregator/lambda_function.py
lines 118-158): read the current snapshot and overwrite the status,
message, timestamp and the whole progress object with the given values. -/
def update_processing_status (current : ProcessingStatus) (status : Str)
    (progress : Nat) (message : Str) (now : Nat) : ProcessingStatus :=
  { current with
    status := status
    message := message
    last_updated := now
    progress_percent := progress }

/-- The status writes the aggregator performs, one constructor per call
site: job completion (line 363, progress 100), the error path (lines 389
and 573, progress 0), and the timeout safety net's start-of-handling write
(line 560, with the Python default `progress=100`). -/
inductive AggregatorWrite where
  | completeWrite (booksProcessed : Nat) (now : Nat)
  | errorWrite (err : Str) (now : Nat)
  | timeoutProcessingWrite (now : Nat)
deriving DecidableEq

/-- Whether a write is the error-path write. -/
def AggregatorWrite.isErrorWrite : AggregatorWrite → Bool
  | .errorWrite _ _ => true
  | _ => false

/-- Application of one aggregator write to the persisted snapshot, with the
arguments of the corresponding call site. -/
def applyAggregatorWrite (s : ProcessingStatus) : AggregatorWrite → ProcessingStatus
  | .completeWrite _ now =>
    update_processing_status s (toStr "complete") 100
      (toStr "Successfully processed books") now
  | .errorWrite e now =>
    update_processing_status s (toStr "error") 0 (toStr "Aggregation failed: " ++ e) now
  | .timeoutProcessingWrite now =>
    update_processing_status s (toStr "processing") 100
      (toStr "Job timed out - processing partial results") now

/-! The Goodreads page genre parser. -/

/-- The fixed excluded format entries (genres/sources/goodreads.py
lines 84-90). -/
def EXCLUDED_GENRES : List Str :=
  [toStr "audiobook", toStr "audiobooks", toStr "audio book", toStr "audio books",
   toStr "audible"]

/-- The accumulation loop over the primary selector's anchor texts
(genres/sources/goodreads.py lines 113-116): keep a non-empty, not yet
seen label whose lowercase form is not an excluded format entry. -/
def parseAccumPrimary : List Str → List Str → List Str
  | [], acc => acc
  | g :: rest, acc =>
    if !g.isEmpty && !decide (g ∈ acc) && !decide (pyLower g ∈ EXCLUDED_GENRES) then
      parseAccumPrimary rest (acc ++ [g])
    else parseAccumPrimary rest acc

/-- The fallback accumulation loop (genres/sources/goodreads.py
lines 120-124), which additionally drops labels of length 50 or more. -/
def parseAccumFallback : List Str → List Str → List Str
  | [], acc => acc
  | g :: rest, acc =>
    if !g.isEmpty && !decide (g ∈ acc) && decide (g.length < 50)
        && !decide (pyLower g ∈ EXCLUDED_GENRES) then
      parseAccumFallback rest (acc ++ [g])
    else parseAccumFallback rest acc

/-- Model of `parse_goodreads_genres` (genres/sources/goodreads.py
lines 93-126) over the anchor texts the two selectors extract from the
page: the primary pass runs first, and the fallback pass runs only when
the primary pass found nothing. -/
def parse_goodreads_genres (primaryTexts fallbackTexts : List Str) : List Str :=
  if (parseAccumPrimary primaryTexts []).isEmpty then parseAccumFallback fallbackTexts []
  else parseAccumPrimary primaryTexts []

/-! Concrete fixtures used by the witness theorems. -/

/-- A sample book that has an external id. -/
def sampleBook1 : BookInfo :=
  ⟨toStr "Dune", toStr "Herbert", none, none, some (toStr "44767458")⟩

/-- A sample book without an external id. -/
def sampleBook2 : BookInfo := ⟨toStr "Hyperion", toStr "Simmons", none, none, none⟩

/-- The original-book record matching `sampleBook1`. -/
def sampleOrig1 : OrigBook := ⟨toStr "Dune", toStr "Herbert", some (toStr "44767458")⟩

/-- A successful enrichment envelope. -/
def sampleResp200 : EnrichedResp :=
  ⟨200, ⟨[toStr "Fantasy"], true, none, none, [], [], none⟩⟩

/-- A stored enriched-result object for `sampleOrig1`. -/
def sampleFile1 : EnrichedFile := ⟨sampleOrig1, sampleResp200⟩

/-- A concrete per-book enrichment function. -/
def sampleEnrichOne (b : BookInfo) : EnrichedBook :=
  ⟨b, false, false, [], [], [], none, none, []⟩

/-- A concrete per-task outcome assignment: task 0 raised, task 1 returned. -/
def sampleOutcome : Nat → TaskOutcome := fun i =>
  if i = 0 then .exn (toStr "boom")
  else .val ⟨some (toStr "id1"), toStr "t", toStr "a", true, [], none, true, none, []⟩

/-- A concrete status snapshot. -/
def sampleStatus : ProcessingStatus := ⟨toStr "processing", toStr "", 0, 40⟩

end GoodreadsStats

namespace GoodreadsStats

/-! Helper lemmas about the lowercase image of a label list. -/

theorem mem_lowerFinset {a : Str} {l : List Str} :
    a ∈ lowerFinset l ↔ ∃ y ∈ l, pyLower y = a := by
  simp [lowerFinset, List.mem_toFinset]

theorem findCaseMatch_some {g e : Str} :
    ∀ {l : List Str}, findCaseMatch g l = some e → e ∈ l ∧ pyLower e = pyLower g := by
  intro l
  induction l with
  | nil => intro h; simp [findCaseMatch] at h
  | cons x rest ih =>
    intro h
    rw [findCaseMatch] at h
    by_cases hx : pyLower x = pyLower g
    · rw [if_pos hx] at h
      obtain rfl : x = e := Option.some.inj h
      exact ⟨List.mem_cons_self x rest, hx⟩
    · rw [if_neg hx] at h
      obtain ⟨h1, h2⟩ := ih h
      exact ⟨List.mem_cons_of_mem _ h1, h2⟩

theorem mem_of_mem_removeFirst {e y : Str} :
    ∀ {l : List Str}, y ∈ removeFirst e l → y ∈ l := by
  intro l
  induction l with
  | nil => intro h; simp [removeFirst] at h
  | cons x rest ih =>
    intro h
    rw [removeFirst] at h
    by_cases hx : x = e
    · rw [if_pos hx] at h
      exact List.mem_cons_of_mem _ h
    · rw [if_neg hx] at h
      rcases List.mem_cons.mp h with rfl | h2
      · exact List.mem_cons_self y rest
      · exact List.mem_cons_of_mem _ (ih h2)

theorem mem_removeFirst_of_mem {e y : Str} :
    ∀ {l : List Str}, y ∈ l → y = e ∨ y ∈ removeFirst e l := by
  intro l
  induction l with
  | nil => intro h; simp at h
  | cons x rest ih =>
    intro h
    rw [removeFirst]
    by_cases hx : x = e
    · rw [if_pos hx]
      rcases List.mem_cons.mp h with rfl | h2
      · exact Or.inl hx
      · exact Or.inr h2
    · rw [if_neg hx]
      rcases List.mem_cons.mp h with rfl | h2
      · exact Or.inr (List.mem_cons_self y _)
      · rcases ih h2 with h3 | h3
        · exact Or.inl h3
        · exact Or.inr (List.mem_cons_of_mem _ h3)

theorem dedupInsert_of_none {acc : List Str} {g : Str}
    (hf : findCaseMatch g acc = none) : dedupInsert acc g = acc ++ [g] := by
  unfold dedupInsert
  rw [hf]

theorem dedupInsert_of_some {acc : List Str} {g e : Str}
    (hf : findCaseMatch g acc = some e) :
    dedupInsert acc g =
      if (pyIsTitle g && !pyIsTitle e) = true then removeFirst e acc ++ [g]
      else acc := by
  unfold dedupInsert
  rw [hf]

theorem lowerFinset_dedupInsert (acc : List Str) (g : Str) :
    lowerFinset (dedupInsert acc g) = insert (pyLower g) (lowerFinset acc) := by
  ext a
  simp only [mem_lowerFinset, Finset.mem_insert]
  cases hf : findCaseMatch g acc with
  | none =>
    rw [dedupInsert_of_none hf]
    constructor
    · rintro ⟨y, hy, rfl⟩
      rcases List.mem_append.mp hy with h | h
      · exact Or.inr ⟨y, h, rfl⟩
      · rw [List.mem_singleton.mp h]
        exact Or.inl rfl
    · rintro (rfl | ⟨y, hy, rfl⟩)
      · exact ⟨g, List.mem_append_right _ (List.mem_singleton_self g), rfl⟩
      · exact ⟨y, List.mem_append_left _ hy, rfl⟩
  | some e =>
    obtain ⟨he, hlow⟩ := findCaseMatch_some hf
    rw [dedupInsert_of_some hf]
    by_cases hrep : (pyIsTitle g && !pyIsTitle e) = true
    · rw [if_pos hrep]
      constructor
      · rintro ⟨y, hy, rfl⟩
        rcases List.mem_append.mp hy with h | h
        · exact Or.inr ⟨y, mem_of_mem_removeFirst h, rfl⟩
        · rw [List.mem_singleton.mp h]
          exact Or.inl rfl
      · rintro (rfl | ⟨y, hy, rfl⟩)
        · exact ⟨g, List.mem_append_right _ (List.mem_singleton_self g), rfl⟩
        · rcases mem_removeFirst_of_mem (e := e) hy with rfl | h
          · refine ⟨g, List.mem_append_right _ (List.mem_singleton_self g), ?_⟩
            rw [hlow]
          · exact ⟨y, List.mem_append_left _ h, rfl⟩
    · rw [if_neg hrep]
      constructor
      · rintro ⟨y, hy, rfl⟩
        exact Or.inr ⟨y, hy, rfl⟩
      · rintro (rfl | ⟨y, hy, rfl⟩)
        · exact ⟨e, he, hlow⟩
        · exact ⟨y, hy, rfl⟩

theorem lowerFinset_dedup_go (l : List Str) :
    ∀ acc, lowerFinset (l.foldl dedupInsert acc) = lowerFinset acc ∪ lowerFinset l := by
  induction l with
  | nil =>
    intro acc
    ext a
    simp [mem_lowerFinset]
  | cons x l ih =>
    intro acc
    rw [List.foldl_cons, ih, lowerFinset_dedupInsert]
    ext a
    simp only [Finset.mem_union, Finset.mem_insert, mem_lowerFinset, List.mem_cons]
    constructor
    · rintro ((rfl | h) | h)
      · exact Or.inr ⟨x, Or.inl rfl, rfl⟩
      · exact Or.inl h
      · rcases h with ⟨y, hy, rfl⟩
        exact Or.inr ⟨y, Or.inr hy, rfl⟩
    · rintro (h | ⟨y, (rfl | hy), rfl⟩)
      · exact Or.inl (Or.inr h)
      · exact Or.inl (Or.inl rfl)
      · exact Or.inr ⟨y, hy, rfl⟩

theorem lowerFinset_perm {l1 l2 : List Str} (h : l1.Perm l2) :
    lowerFinset l1 = lowerFinset l2 := by
  ext a
  simp only [mem_lowerFinset]
  constructor
  · rintro ⟨y, hy, rfl⟩
    exact ⟨y, h.mem_iff.mp hy, rfl⟩
  · rintro ⟨y, hy, rfl⟩
    exact ⟨y, h.mem_iff.mpr hy, rfl⟩

theorem lowerFinset_append (l1 l2 : List Str) :
    lowerFinset (l1 ++ l2) = lowerFinset l1 ∪ lowerFinset l2 := by
  simp [lowerFinset, List.toFinset_append]

theorem lowerFinset_normalize (A B : List Str) :
    lowerFinset (merge_and_normalize A B)
      = lowerFinset ((A ++ B).filterMap cleanGenre) := by
  unfold merge_and_normalize dedupGenres
  rw [lowerFinset_perm (List.perm_insertionSort strLeRel _),
    lowerFinset_dedup_go]
  ext a
  simp [mem_lowerFinset]

/-! Helper lemmas about the code-point ordering. -/

theorem strLe_total : ∀ a b : Str, strLe a b = true ∨ strLe b a = true := by
  intro a
  induction a with
  | nil => intro b; exact Or.inl rfl
  | cons x xs ih =>
    intro b
    cases b with
    | nil => exact Or.inr rfl
    | cons y ys =>
      rw [strLe, strLe]
      by_cases h1 : x.toNat < y.toNat
      · left
        rw [if_pos h1]
      · by_cases h2 : y.toNat < x.toNat
        · right
          rw [if_pos h2]
        · rw [if_neg h1, if_neg h2, if_neg h2, if_neg h1]
          exact ih ys

theorem strLe_trans :
    ∀ a b c : Str, strLe a b = true → strLe b c = true → strLe a c = true := by
  intro a
  induction a with
  | nil => intro b c _ _; rfl
  | cons x xs ih =>
    intro b c hab hbc
    cases b with
    | nil => simp [strLe] at hab
    | cons y ys =>
      cases c with
      | nil => simp [strLe] at hbc
      | cons z zs =>
        rw [strLe] at hab hbc ⊢
        split_ifs at hab hbc ⊢ <;>
          first
          | rfl
          | omega
          | simp at hab
          | simp at hbc
          | exact ih ys zs hab hbc

/-! Helper lemma for claim C5. -/

theorem cleanGenre_isNone (g : Str) : (cleanGenre g).isNone = specDiscardCond g := by
  unfold cleanGenre specDiscardCond
  by_cases h0 : (g.isEmpty || (pyStrip g).isEmpty) = true
  · rw [if_pos h0]
    have hs : pyStrip g = [] := by
      rcases (Bool.or_eq_true _ _).mp h0 with h | h
      · cases g with
        | nil => rfl
        | cons a l => simp [List.isEmpty] at h
      · cases hsg : pyStrip g with
        | nil => rfl
        | cons a l => rw [hsg] at h; simp [List.isEmpty] at h
    rw [hs]
    rfl
  · rw [if_neg h0]
    by_cases h1 : (stripNoisePrefixes (pyStrip g)).length < 2
    · simp only [if_pos h1, Option.isNone_none, decide_eq_true h1]
      simp
    · have hne : (stripNoisePrefixes (pyStrip g)).isEmpty = false := by
        cases hc : stripNoisePrefixes (pyStrip g) with
        | nil => rw [hc] at h1; exact absurd (by decide) h1
        | cons a l => rfl
      rw [if_neg h1]
      by_cases h2 : pyIsDigitStr (stripNoisePrefixes (pyStrip g)) = true
      · simp [h2, hne, h1]
      · rw [if_neg h2]
        by_cases h3 :
            (toStr " century").isSuffixOf (stripNoisePrefixes (pyStrip g)) = true
        · simp [h3, hne, h1, h2]
        · rw [if_neg h3, if_neg (by rw [hne]; exact Bool.false_ne_true)]
          simp [hne, h1, h2, h3]

/-! Claims C5, C6 and C7. -/

/-- Claim C5, counterexample: the claim's discard condition says a label
whose stripped form ends with the literal suffix "century" is excluded, but
the source only tests the suffix " century" (with a leading space):
"Midcentury" ends with "century", is not discarded by `cleanGenre`, and
survives into the output of `merge_and_normalize`. -/
theorem merger_century_suffix_counterexample :
    (toStr "century").isSuffixOf (stripNoisePrefixes (pyStrip (toStr "Midcentury"))) = true
    ∧ cleanGenre (toStr "Midcentury") = some (toStr "Midcentury")
    ∧ merge_and_normalize [toStr "Midcentury"] [] = [toStr "Midcentury"] := by
  decide

/-- Claim C5, amended: after trimming and noise-prefix stripping, a raw
label is discarded by the per-label filter of `merge_and_normalize` exactly
when the stripped result is empty, shorter than 2 characters, purely
numeric, or ends with the literal suffix " century" (a space followed by
"century"); in particular the input ["20th century"] yields an empty output
and the input ["a"] yields an empty output. -/
theorem merger_filter_condition :
    (∀ g : Str, (cleanGenre g).isNone = specDiscardCond g)
    ∧ (∀ A B : List Str,
        lowerFinset (merge_and_normalize A B)
          = lowerFinset ((A ++ B).filterMap cleanGenre))
    ∧ merge_and_normalize [toStr "20th century"] [] = []
    ∧ merge_and_normalize [toStr "a"] [] = [] := by
  refine ⟨cleanGenre_isNone, lowerFinset_normalize, by decide, by decide⟩

/-- Claim C6: `merge_and_normalize` deduplicates case-insensitively keeping
the title-case rendering, filters the date-like entry, and sorts by default
code-point order; on the claim's concrete input it returns exactly
["Fiction", "Science Fiction", "fantasy"], and in general its output is
sorted by the code-point ordering. -/
theorem merger_concrete_example :
    merge_and_normalize
        [toStr "Fiction", toStr "FICTION", toStr "Science Fiction"]
        [toStr "fiction", toStr "fantasy", toStr "20th century"]
      = [toStr "Fiction", toStr "Science Fiction", toStr "fantasy"]
    ∧ ∀ A B : List Str, (merge_and_normalize A B).Sorted strLeRel := by
  refine ⟨by decide, ?_⟩
  intro A B
  haveI : IsTotal Str strLeRel := ⟨strLe_total⟩
  haveI : IsTrans Str strLeRel := ⟨fun a b c => strLe_trans a b c⟩
  exact List.sorted_insertionSort strLeRel _

/-- Claim C7, counterexample: `merge_and_normalize` is not order-independent
at the set level.  "ab" and "AB" are case-insensitive duplicates and neither
is title case, so the first-seen rendering is kept: swapping the argument
lists swaps which rendering survives, and the output sets differ. -/
theorem merger_order_counterexample :
    merge_and_normalize [toStr "ab"] [toStr "AB"] = [toStr "ab"]
    ∧ merge_and_normalize [toStr "AB"] [toStr "ab"] = [toStr "AB"]
    ∧ (merge_and_normalize [toStr "ab"] [toStr "AB"]).toFinset
        ≠ (merge_and_normalize [toStr "AB"] [toStr "ab"]).toFinset := by
  decide

/-- Claim C7, amended: `merge_and_normalize` is order-independent at the
case-insensitive set level: for every pair of genre lists A and B, the set
of lowercased labels of normalize(A, B) equals that of normalize(B, A).
(The surviving case renderings themselves can depend on the argument
order.) -/
theorem merger_order_independent_lower :
    ∀ A B : List Str,
      lowerFinset (merge_and_normalize A B) = lowerFinset (merge_and_normalize B A) := by
  intro A B
  rw [lowerFinset_normalize, lowerFinset_normalize, List.filterMap_append,
    List.filterMap_append, lowerFinset_append, lowerFinset_append,
    Finset.union_comm]

/-! Helper lemmas for claim C9. -/

theorem append_sep_inj (sep : Char) :
    ∀ (t1 a1 t2 a2 : List Char), sep ∉ t1 → sep ∉ t2 →
      t1 ++ sep :: a1 = t2 ++ sep :: a2 → t1 = t2 ∧ a1 = a2 := by
  intro t1
  induction t1 with
  | nil =>
    intro a1 t2 a2 _ h2 h
    cases t2 with
    | nil =>
      refine ⟨rfl, ?_⟩
      rw [List.nil_append, List.nil_append] at h
      injection h with _ h4
    | cons c t2' =>
      rw [List.nil_append, List.cons_append] at h
      injection h with h3 _
      subst h3
      exact absurd (List.mem_cons_self sep t2') h2
  | cons c t1' ih =>
    intro a1 t2 a2 h1 h2 h
    cases t2 with
    | nil =>
      rw [List.nil_append, List.cons_append] at h
      injection h with h3 _
      subst h3
      exact absurd (List.mem_cons_self c t1') h1
    | cons c2 t2' =>
      rw [List.cons_append, List.cons_append] at h
      injection h with h3 h4
      subst h3
      have h1' : sep ∉ t1' := fun hm => h1 (List.mem_cons_of_mem _ hm)
      have h2' : sep ∉ t2' := fun hm => h2 (List.mem_cons_of_mem _ hm)
      obtain ⟨ht, ha⟩ := ih a1 t2' a2 h1' h2' h4
      exact ⟨by rw [ht], ha⟩

theorem bookKey_none (t a : Str) : bookKey none t a = t ++ '-' :: a := by
  show t ++ toStr "-" ++ a = t ++ '-' :: a
  rw [List.append_assoc]
  rfl

/-! Claims C9 and C3. -/

/-- Claim C9, counterexample: two distinct books that both lack an external
id can collide on the fallback key: ("a-b", "c") and ("a", "b-c") both map
to "a-b-c". -/
theorem bookKey_collision_counterexample :
    (⟨toStr "a-b", toStr "c", none, none, none⟩ : BookInfo)
        ≠ ⟨toStr "a", toStr "b-c", none, none, none⟩
    ∧ (⟨toStr "a-b", toStr "c", none, none, none⟩ : BookInfo).goodreads_id = none
    ∧ (⟨toStr "a", toStr "b-c", none, none, none⟩ : BookInfo).goodreads_id = none
    ∧ orchestratorBookId ⟨toStr "a-b", toStr "c", none, none, none⟩
        = orchestratorBookId ⟨toStr "a", toStr "b-c", none, none, none⟩ := by
  decide

/-- Claim C9, amended: the correlation key is deterministic — the
orchestrator and the aggregator compute identical keys from identical
identifier fields — and the title+author fallback key is collision-resistant
only for identifiers whose titles do not contain the separator "-": two
books lacking external ids whose titles avoid "-" and whose keys coincide
must agree on title and author.  (Titles containing "-" can collide, as the
counterexample shows.) -/
theorem bookKey_deterministic_and_injective :
    (∀ b : BookInfo,
      orchestratorBookId b = origBookKey ⟨b.title, b.author, b.goodreads_id⟩)
    ∧ (∀ b1 b2 : BookInfo, b1.goodreads_id = none → b2.goodreads_id = none →
        '-' ∉ b1.title → '-' ∉ b2.title →
        orchestratorBookId b1 = orchestratorBookId b2 →
        b1.title = b2.title ∧ b1.author = b2.author) := by
  constructor
  · intro b
    rfl
  · intro b1 b2 hg1 hg2 ht1 ht2 hk
    unfold orchestratorBookId at hk
    rw [hg1, hg2, bookKey_none, bookKey_none] at hk
    exact append_sep_inj '-' b1.title b1.author b2.title b2.author ht1 ht2 hk

/-- Witness for the amended claim C9 at a concrete book without an id. -/
theorem bookKey_deterministic_and_injective_witness :
    sampleBook2.title = sampleBook2.title ∧ sampleBook2.author = sampleBook2.author :=
  bookKey_deterministic_and_injective.2 sampleBook2 sampleBook2 rfl rfl
    (by decide) (by decide) rfl

/-- Claim C3, counterexample: progress is not monotone across the
aggregator's persisted snapshots.  The timeout safety net's write sets
progress to 100 and the subsequent error-path write resets it to 0, a
strict decrease. -/
theorem progress_decrease_counterexample :
    (applyAggregatorWrite sampleStatus (.timeoutProcessingWrite 1)).progress_percent = 100
    ∧ (applyAggregatorWrite
        (applyAggregatorWrite sampleStatus (.timeoutProcessingWrite 1))
        (.errorWrite (toStr "boom") 2)).progress_percent = 0
    ∧ (applyAggregatorWrite
        (applyAggregatorWrite sampleStatus (.timeoutProcessingWrite 1))
        (.errorWrite (toStr "boom") 2)).progress_percent
      < (applyAggregatorWrite sampleStatus (.timeoutProcessingWrite 1)).progress_percent := by
  decide

/-- Claim C3, amended: across the aggregator's persisted snapshots the
progress value never decreases under non-error writes (every non-error call
site writes 100, the upper bound of all snapshots); only the error-path
write resets progress to 0 and can decrease it. -/
theorem progress_monotone_nonerror (s : ProcessingStatus) (w : AggregatorWrite)
    (hs : s.progress_percent ≤ 100) (hw : w.isErrorWrite = false) :
    s.progress_percent ≤ (applyAggregatorWrite s w).progress_percent
    ∧ (applyAggregatorWrite s w).progress_percent ≤ 100 := by
  cases w with
  | completeWrite n now => exact ⟨hs, le_refl 100⟩
  | errorWrite e now => simp [AggregatorWrite.isErrorWrite] at hw
  | timeoutProcessingWrite now => exact ⟨hs, le_refl 100⟩

/-- Witness for the amended claim C3 at a concrete snapshot and write. -/
theorem progress_monotone_nonerror_witness :
    sampleStatus.progress_percent
        ≤ (applyAggregatorWrite sampleStatus (.completeWrite 5 7)).progress_percent
    ∧ (applyAggregatorWrite sampleStatus (.completeWrite 5 7)).progress_percent ≤ 100 :=
  progress_monotone_nonerror sampleStatus (.completeWrite 5 7) (by decide) rfl

/-! Helper lemmas about dict builds (last write wins). -/

theorem dictOfList_fold (key : α → Str) (l : List α) :
    ∀ (m : Str → Option α) (k : Str),
      (l.foldl (dictInsert key) m) k
        = match dictOfList key l k with
          | some x => some x
          | none => m k := by
  induction l with
  | nil => intro m k; rfl
  | cons r l ih =>
    intro m k
    rw [List.foldl_cons, ih (dictInsert key m r) k]
    have h2 : dictOfList key (r :: l) k
        = match dictOfList key l k with
          | some x => some x
          | none => dictInsert key (fun _ => none) r k := by
      rw [dictOfList, List.foldl_cons]
      exact ih (dictInsert key (fun _ => none) r) k
    rw [h2]
    cases dictOfList key l k with
    | some x => rfl
    | none =>
      show dictInsert key m r k
          = match dictInsert key (fun _ => none) r k with
            | some x => some x
            | none => m k
      unfold dictInsert
      by_cases hk : k = key r
      · simp [hk]
      · simp [hk]

theorem dictOfList_idem (key : α → Str) (l : List α) (k : Str) :
    dictOfList key (l ++ l) k = dictOfList key l k := by
  rw [dictOfList, List.foldl_append]
  rw [show List.foldl (dictInsert key) (fun _ => none) l = dictOfList key l from rfl]
  rw [dictOfList_fold key l (dictOfList key l) k]
  cases dictOfList key l k with
  | some x => rfl
  | none => rfl

theorem dictOfList_snoc (key : α → Str) (l : List α) (x : α) (k : Str) :
    dictOfList key (l ++ [x]) k = if k = key x then some x else dictOfList key l k := by
  rw [dictOfList, List.foldl_append]
  rfl

/-! Claims C4 and C2. -/

/-- Claim C4: aggregation is idempotent by correlation key.  Feeding the
same result list twice produces an identical dashboard; the dashboard has
exactly one entry per original book; a result appended later overwrites an
earlier result under the same key in the lookup map; the aggregator-side
merge is likewise unchanged by duplicated inputs. -/
theorem aggregation_idempotent_by_key :
    (∀ (results : List EnrichedResult) (origs : List OrigBook),
      create_final_dashboard_books (results ++ results) origs
        = create_final_dashboard_books results origs)
    ∧ (∀ (results : List EnrichedResult) (origs : List OrigBook),
        (create_final_dashboard_books results origs).length = origs.length)
    ∧ (∀ (results : List EnrichedResult) (r : EnrichedResult) (k : Str),
        buildEnrichedMap (results ++ [r]) k
          = if k = resultKey r then some r else buildEnrichedMap results k)
    ∧ (∀ (files : List EnrichedFile) (origs : List OrigBook),
        merge_enriched_data origs (buildAggMap (files ++ files))
          = merge_enriched_data origs (buildAggMap files)) := by
  refine ⟨?_, ?_, ?_, ?_⟩
  · intro results origs
    have h : buildEnrichedMap (results ++ results) = buildEnrichedMap results :=
      funext (fun k => dictOfList_idem resultKey results k)
    unfold create_final_dashboard_books
    rw [h]
  · intro results origs
    simp [create_final_dashboard_books]
  · intro results r k
    exact dictOfList_snoc resultKey results r k
  · intro files origs
    have h : buildAggMap (files ++ files) = buildAggMap files := by
      funext k
      unfold buildAggMap
      rw [dictOfList_idem]
    unfold merge_enriched_data
    rw [h]

theorem process_job_aggregation_eq (origs : List OrigBook) (files : List EnrichedFile) :
    process_job_aggregation origs files
      = if (merge_enriched_data origs (buildAggMap files)).isEmpty = true
        then Except.error (toStr "No enhanced books created")
        else Except.ok (merge_enriched_data origs (buildAggMap files)) := rfl

/-- Claim C2: when the aggregation input correlates at least one usable
per-book result, the aggregator returns a complete output — one merged
record per original book, with a missing enrichment recorded as a failed
outcome carrying the original book — and does not abort; a job-level error
is raised exactly when zero enhanced records can be constructed, which in
this typed model happens exactly on an empty original-book list. -/
theorem aggregator_partial_tolerance (origs : List OrigBook) (files : List EnrichedFile)
    (h : ∃ ob ∈ origs, (buildAggMap files (origBookKey ob)).isSome = true) :
    process_job_aggregation origs files
        = Except.ok (merge_enriched_data origs (buildAggMap files))
    ∧ (merge_enriched_data origs (buildAggMap files)).length = origs.length
    ∧ (∀ ob ∈ origs, buildAggMap files (origBookKey ob) = none →
        (mergeOneBook (buildAggMap files) ob).orig = ob
        ∧ (mergeOneBook (buildAggMap files) ob).genre_enrichment_success = false
        ∧ (mergeOneBook (buildAggMap files) ob).final_genres = []
        ∧ (mergeOneBook (buildAggMap files) ob).enrichment_logs
            = [toStr "Enrichment failed: " ++ toStr "No enriched result found"])
    ∧ (∀ origs2 : List OrigBook,
        (∃ e, process_job_aggregation origs2 files = Except.error e) ↔ origs2 = []) := by
  obtain ⟨ob0, hob0, -⟩ := h
  have hne : origs ≠ [] := by
    intro hh
    rw [hh] at hob0
    exact (List.not_mem_nil ob0) hob0
  refine ⟨?_, ?_, ?_, ?_⟩
  · have h1 : (merge_enriched_data origs (buildAggMap files)).isEmpty = false := by
      unfold merge_enriched_data
      cases origs with
      | nil => exact absurd rfl hne
      | cons a l => rfl
    rw [process_job_aggregation_eq, h1]
    rfl
  · simp [merge_enriched_data]
  · intro ob hob hnone
    unfold mergeOneBook
    rw [hnone]
    exact ⟨rfl, rfl, rfl, rfl⟩
  · intro origs2
    constructor
    · rintro ⟨e, he⟩
      by_cases h2 : origs2 = []
      · exact h2
      · exfalso
        have h3 : (merge_enriched_data origs2 (buildAggMap files)).isEmpty = false := by
          unfold merge_enriched_data
          cases origs2 with
          | nil => exact absurd rfl h2
          | cons a l => rfl
        rw [process_job_aggregation_eq, h3] at he
        simp at he
    · rintro rfl
      exact ⟨toStr "No enhanced books created", rfl⟩

/-- Witness for claim C2 at a one-book job whose single result correlates. -/
theorem aggregator_partial_tolerance_witness :
    process_job_aggregation [sampleOrig1] [sampleFile1]
        = Except.ok (merge_enriched_data [sampleOrig1] (buildAggMap [sampleFile1]))
    ∧ (merge_enriched_data [sampleOrig1] (buildAggMap [sampleFile1])).length = 1 := by
  have h := aggregator_partial_tolerance [sampleOrig1] [sampleFile1]
    ⟨sampleOrig1, by decide, by decide⟩
  exact ⟨h.1, h.2.1⟩

/-! Helper lemmas for the gather model. -/

theorem fillSlots_eq (f : Nat → α) :
    ∀ (order : List Nat) (slots : Nat → Option α) (j : Nat),
      fillSlots f order slots j = if j ∈ order then some (f j) else slots j := by
  intro order
  induction order with
  | nil => intro slots j; simp [fillSlots]
  | cons i rest ih =>
    intro slots j
    rw [fillSlots, ih]
    by_cases hj : j ∈ rest
    · rw [if_pos hj, if_pos (List.mem_cons_of_mem i hj)]
    · rw [if_neg hj]
      by_cases hji : j = i
      · subst hji
        rw [if_pos rfl, if_pos (List.mem_cons_self j rest)]
      · rw [if_neg hji, if_neg (by simp [List.mem_cons, hji, hj])]

theorem getD_map_range {β : Type} (n : Nat) (f : Nat → β) (d : β) {i : Nat}
    (hi : i < n) : ((List.range n).map f).getD i d = f i := by
  have hlen : i < ((List.range n).map f).length := by simpa using hi
  rw [List.getD_eq_getElem _ d hlen, List.getElem_map, List.getElem_range]

/-! Claims C1 and C8. -/

/-- Claim C1: both enrichment strategies return one result slot per input,
in input order, independent of the completion order.  For any completion
order that covers every task index, the local batch's slot i holds the
enrichment of book i, and the distributed chunk's slot i holds the
converted outcome of invocation i. -/
theorem enrichBatch_length_and_order
    (books : List BookInfo) (enrichOne : BookInfo → EnrichedBook) (order1 : List Nat)
    (h1 : ∀ i, i < books.length → i ∈ order1)
    (chunk : List BookInfo) (outcome : Nat → TaskOutcome) (order2 : List Nat)
    (h2 : ∀ i, i < chunk.length → i ∈ order2) :
    ((enrich_books_batch enrichOne books order1).length = books.length
      ∧ ∀ i, i < books.length →
          (enrich_books_batch enrichOne books order1).getD i none
            = some (enrichOne (books.getD i default)))
    ∧ ((process_chunk_simultaneously chunk outcome order2).length = chunk.length
      ∧ ∀ i, i < chunk.length →
          (process_chunk_simultaneously chunk outcome order2).getD i none
            = some (convertTaskOutcome (chunk.getD i default) (outcome i))) := by
  refine ⟨⟨?_, ?_⟩, ⟨?_, ?_⟩⟩
  · simp [enrich_books_batch, gatherResults]
  · intro i hi
    unfold enrich_books_batch gatherResults
    rw [getD_map_range books.length _ none hi, fillSlots_eq, if_pos (h1 i hi)]
  · simp [process_chunk_simultaneously]
  · intro i hi
    unfold process_chunk_simultaneously
    rw [getD_map_range chunk.length _ none hi, fillSlots_eq, if_pos (h2 i hi)]
    rfl

/-- Witness for claim C1: a two-book batch completed in reverse order still
yields the first book's enrichment in slot 0. -/
theorem enrichBatch_length_and_order_witness :
    (enrich_books_batch sampleEnrichOne [sampleBook1, sampleBook2] [1, 0]).getD 0 none
      = some (sampleEnrichOne sampleBook1) := by
  have h := enrichBatch_length_and_order [sampleBook1, sampleBook2] sampleEnrichOne
    [1, 0] (by decide) [sampleBook1, sampleBook2] sampleOutcome [1, 0] (by decide)
  exact h.1.2 0 (by decide)

/-- Claim C8: every failed invocation is converted at the dispatcher
boundary into a structured failure record — carrying the book's key, a
false success flag, and an error message, never a raw exception — both when
`invoke_book_processor_with_fallback` catches the exception and when the
gathered task itself surfaces one; and every other chunk member still
produces its outcome. -/
theorem dispatcher_failure_isolation
    (invokeRes : BookInfo → InvocationOutcome)
    (chunk : List BookInfo) (outcome : Nat → TaskOutcome) (order : List Nat)
    (h : ∀ i, i < chunk.length → i ∈ order) :
    (∀ book e, invokeRes book = .exn e →
        invoke_book_processor_with_fallback invokeRes book = invocationFailedResult book e)
    ∧ (∀ book resp m, invokeRes book = .ok resp → resp.errorMessage = some m →
        invoke_book_processor_with_fallback invokeRes book
          = invocationFailedResult book (toStr "Lambda error: " ++ m))
    ∧ (∀ book e, (invocationFailedResult book e).success = false
        ∧ (invocationFailedResult book e).book_id = some (orchestratorBookId book)
        ∧ ((invocationFailedResult book e).error_message).isSome = true)
    ∧ (∀ i e, i < chunk.length → outcome i = .exn e →
        (process_chunk_simultaneously chunk outcome order).getD i none
          = some (lambdaFailedResult (chunk.getD i default) e)
        ∧ (lambdaFailedResult (chunk.getD i default) e).success = false
        ∧ (lambdaFailedResult (chunk.getD i default) e).book_id
            = some (orchestratorBookId (chunk.getD i default))
        ∧ ((lambdaFailedResult (chunk.getD i default) e).error_message).isSome = true)
    ∧ (∀ j, j < chunk.length →
        ((process_chunk_simultaneously chunk outcome order).getD j none).isSome
          = true) := by
  refine ⟨?_, ?_, ?_, ?_, ?_⟩
  · intro book e he
    unfold invoke_book_processor_with_fallback
    rw [he]
  · intro book resp m hok hm
    simp only [invoke_book_processor_with_fallback, hok, hm]
  · intro book e
    exact ⟨rfl, rfl, rfl⟩
  · intro i e hi he
    refine ⟨?_, rfl, rfl, rfl⟩
    unfold process_chunk_simultaneously
    rw [getD_map_range chunk.length _ none hi, fillSlots_eq, if_pos (h i hi), he]
    rfl
  · intro j hj
    unfold process_chunk_simultaneously
    rw [getD_map_range chunk.length _ none hj, fillSlots_eq, if_pos (h j hj)]
    rfl

/-- Witness for claim C8: in a concrete chunk whose first task raised, slot
0 holds the structured failure record for book 0. -/
theorem dispatcher_failure_isolation_witness :
    (process_chunk_simultaneously [sampleBook1, sampleBook2] sampleOutcome [1, 0]).getD 0 none
      = some (lambdaFailedResult ([sampleBook1, sampleBook2].getD 0 default) (toStr "boom")) := by
  exact ((dispatcher_failure_isolation (fun _ => .exn (toStr "x"))
    [sampleBook1, sampleBook2] sampleOutcome [1, 0] (by decide)).2.2.2.1
    0 (toStr "boom") (by decide) rfl).1

/-! Helper lemmas for claim C10. -/

theorem parseAccumPrimary_nodup :
    ∀ (l acc : List Str), acc.Nodup → (parseAccumPrimary l acc).Nodup := by
  intro l
  induction l with
  | nil => intro acc h; exact h
  | cons g rest ih =>
    intro acc h
    rw [parseAccumPrimary]
    by_cases hc : (!g.isEmpty && !decide (g ∈ acc)
        && !decide (pyLower g ∈ EXCLUDED_GENRES)) = true
    · rw [if_pos hc]
      apply ih
      rcases (Bool.and_eq_true _ _).mp hc with ⟨hc1, -⟩
      rcases (Bool.and_eq_true _ _).mp hc1 with ⟨-, hc2⟩
      have hg : g ∉ acc := by
        intro hmem
        rw [decide_eq_true hmem] at hc2
        exact Bool.false_ne_true hc2
      refine List.Nodup.append h (List.nodup_singleton g) ?_
      intro x hx hxg
      rw [List.mem_singleton.mp hxg] at hx
      exact hg hx
    · rw [if_neg hc]
      exact ih acc h

theorem parseAccumPrimary_sublist :
    ∀ (l acc : List Str), ∃ d, parseAccumPrimary l acc = acc ++ d ∧ d.Sublist l := by
  intro l
  induction l with
  | nil =>
    intro acc
    exact ⟨[], by simp [parseAccumPrimary], List.Sublist.refl []⟩
  | cons g rest ih =>
    intro acc
    rw [parseAccumPrimary]
    by_cases hc : (!g.isEmpty && !decide (g ∈ acc)
        && !decide (pyLower g ∈ EXCLUDED_GENRES)) = true
    · rw [if_pos hc]
      obtain ⟨d, hd, hs⟩ := ih (acc ++ [g])
      refine ⟨g :: d, ?_, List.Sublist.cons₂ g hs⟩
      rw [hd, List.append_assoc]
      rfl
    · rw [if_neg hc]
      obtain ⟨d, hd, hs⟩ := ih acc
      exact ⟨d, hd, List.Sublist.cons g hs⟩

theorem parseAccumPrimary_excluded :
    ∀ (l acc : List Str), (∀ x ∈ acc, pyLower x ∉ EXCLUDED_GENRES) →
      ∀ x ∈ parseAccumPrimary l acc, pyLower x ∉ EXCLUDED_GENRES := by
  intro l
  induction l with
  | nil => intro acc h; exact h
  | cons g rest ih =>
    intro acc h
    rw [parseAccumPrimary]
    by_cases hc : (!g.isEmpty && !decide (g ∈ acc)
        && !decide (pyLower g ∈ EXCLUDED_GENRES)) = true
    · rw [if_pos hc]
      apply ih
      rcases (Bool.and_eq_true _ _).mp hc with ⟨-, hc3⟩
      have hgx : pyLower g ∉ EXCLUDED_GENRES := by
        intro hmem
        rw [decide_eq_true hmem] at hc3
        exact Bool.false_ne_true hc3
      intro x hx
      rcases List.mem_append.mp hx with h1 | h1
      · exact h x h1
      · rw [List.mem_singleton.mp h1]
        exact hgx
    · rw [if_neg hc]
      exact ih acc h

theorem parseAccumFallback_nodup :
    ∀ (l acc : List Str), acc.Nodup → (parseAccumFallback l acc).Nodup := by
  intro l
  induction l with
  | nil => intro acc h; exact h
  | cons g rest ih =>
    intro acc h
    rw [parseAccumFallback]
    by_cases hc : (!g.isEmpty && !decide (g ∈ acc) && decide (g.length < 50)
        && !decide (pyLower g ∈ EXCLUDED_GENRES)) = true
    · rw [if_pos hc]
      apply ih
      rcases (Bool.and_eq_true _ _).mp hc with ⟨hc1, -⟩
      rcases (Bool.and_eq_true _ _).mp hc1 with ⟨hc0, -⟩
      rcases (Bool.and_eq_true _ _).mp hc0 with ⟨-, hc2⟩
      have hg : g ∉ acc := by
        intro hmem
        rw [decide_eq_true hmem] at hc2
        exact Bool.false_ne_true hc2
      refine List.Nodup.append h (List.nodup_singleton g) ?_
      intro x hx hxg
      rw [List.mem_singleton.mp hxg] at hx
      exact hg hx
    · rw [if_neg hc]
      exact ih acc h

theorem parseAccumFallback_sublist :
    ∀ (l acc : List Str), ∃ d, parseAccumFallback l acc = acc ++ d ∧ d.Sublist l := by
  intro l
  induction l with
  | nil =>
    intro acc
    exact ⟨[], by simp [parseAccumFallback], List.Sublist.refl []⟩
  | cons g rest ih =>
    intro acc
    rw [parseAccumFallback]
    by_cases hc : (!g.isEmpty && !decide (g ∈ acc) && decide (g.length < 50)
        && !decide (pyLower g ∈ EXCLUDED_GENRES)) = true
    · rw [if_pos hc]
      obtain ⟨d, hd, hs⟩ := ih (acc ++ [g])
      refine ⟨g :: d, ?_, List.Sublist.cons₂ g hs⟩
      rw [hd, List.append_assoc]
      rfl
    · rw [if_neg hc]
      obtain ⟨d, hd, hs⟩ := ih acc
      exact ⟨d, hd, List.Sublist.cons g hs⟩

theorem parseAccumFallback_excluded :
    ∀ (l acc : List Str), (∀ x ∈ acc, pyLower x ∉ EXCLUDED_GENRES) →
      ∀ x ∈ parseAccumFallback l acc, pyLower x ∉ EXCLUDED_GENRES := by
  intro l
  induction l with
  | nil => intro acc h; exact h
  | cons g rest ih =>
    intro acc h
    rw [parseAccumFallback]
    by_cases hc : (!g.isEmpty && !decide (g ∈ acc) && decide (g.length < 50)
        && !decide (pyLower g ∈ EXCLUDED_GENRES)) = true
    · rw [if_pos hc]
      apply ih
      rcases (Bool.and_eq_true _ _).mp hc with ⟨-, hc3⟩
      have hgx : pyLower g ∉ EXCLUDED_GENRES := by
        intro hmem
        rw [decide_eq_true hmem] at hc3
        exact Bool.false_ne_true hc3
      intro x hx
      rcases List.mem_append.mp hx with h1 | h1
      · exact h x h1
      · rw [List.mem_singleton.mp h1]
        exact hgx
    · rw [if_neg hc]
      exact ih acc h

/-! Claim C10. -/

/-- Claim C10: for every extracted anchor-text sequence of a page, the
Goodreads genre parser returns a list without repeated labels, preserving
first-seen document order (its output is a sublist of whichever selector
pass produced it), and containing no label whose lowercase form is one of
the fixed excluded format entries. -/
theorem goodreads_parser_properties (primary fallback : List Str) :
    (parse_goodreads_genres primary fallback).Nodup
    ∧ ((parse_goodreads_genres primary fallback).Sublist primary
        ∨ (parse_goodreads_genres primary fallback).Sublist fallback)
    ∧ ∀ g ∈ parse_goodreads_genres primary fallback, pyLower g ∉ EXCLUDED_GENRES := by
  have hstart : ∀ x ∈ ([] : List Str), pyLower x ∉ EXCLUDED_GENRES := by
    intro x hx
    exact absurd hx (List.not_mem_nil x)
  unfold parse_goodreads_genres
  by_cases hp : (parseAccumPrimary primary []).isEmpty = true
  · rw [if_pos hp]
    refine ⟨parseAccumFallback_nodup fallback [] List.nodup_nil, ?_, ?_⟩
    · right
      obtain ⟨d, hd, hs⟩ := parseAccumFallback_sublist fallback []
      rw [List.nil_append] at hd
      rw [hd]
      exact hs
    · exact parseAccumFallback_excluded fallback [] hstart
  · rw [if_neg hp]
    refine ⟨parseAccumPrimary_nodup primary [] List.nodup_nil, ?_, ?_⟩
    · left
      obtain ⟨d, hd, hs⟩ := parseAccumPrimary_sublist primary []
      rw [List.nil_append] at hd
      rw [hd]
      exact hs
    · exact parseAccumPrimary_excluded primary [] hstart

/-- Witness for claim C10: a concrete page whose extracted texts contain a
kept genre, applying the excluded-format conjunct at that member. -/
theorem goodreads_parser_properties_witness :
    pyLower (toStr "Fantasy") ∉ EXCLUDED_GENRES :=
  (goodreads_parser_properties [toStr "Fantasy", toStr "Audiobook"] []).2.2
    (toStr "Fantasy") (by decide)

end GoodreadsStats
